import Mathlib

/-!
# Verification of the `pydirect` wrapper (`src/DIRECT/__init__.py`)

A shallow embedding of the Python wrapper around the Fortran DIRECT core.
Real numbers of the program are idealized as rationals (`ℚ`); Python lists,
tuples and numpy 1-d arrays as Lean lists; a raised Python exception as the
`Except.error` branch.  The Fortran core itself is not part of the sources;
where a claim depends on its behaviour the core is modelled from the spec
(those definitions are marked `Modelled from the spec:`).
-/

namespace PyDirect

/-- Python exceptions that the wrapper can raise: `raise Exception(msg)` in
`solve`, or an `IndexError` when a tuple subscript is out of range. -/
inductive PyError where
  | exception : String → PyError
  | indexError : PyError
  deriving Repr, DecidableEq

/-- The `ERROR_MESSAGES` tuple, exactly as Python evaluates the source:
the comma after `'maxf is too large'` is missing in the source, so Python
concatenates the two adjacent string literals and the tuple has FIVE
elements, the last being the merged string. -/
def ERROR_MESSAGES : List String := [
  "Maximum number of levels has been reached.",
  "An error occured while the function was sampled",
  "There was an error in the creation of the sample points",
  "Initialization failed",
  "maxf is too large" ++ "u[i] < l[i] for some i"
]

/-- The `SUCCESS_MESSAGES` tuple of the source (five entries). -/
def SUCCESS_MESSAGES : List String := [
  "Number of function evaluations done is larger then maxf",
  "Number of iterations is equal to maxT",
  "The best function value found is within fglper of the (known) global optimum",
  "The volume of the hyperrectangle with best function value found is below volper",
  "The volume of the hyperrectangle with best function value found is smaller then volper"
]

/-- Python sequence subscript `t[i]`: a negative index counts from the end
(`t[i]` is `t[len(t)+i]`); an index out of range yields no element
(an `IndexError` at run time). -/
def pyIndex (msgs : List String) (i : Int) : Option String :=
  let j : Int := if i < 0 then (msgs.length : Int) + i else i
  if 0 ≤ j then msgs.get? j.toNat else none

/-- Result triple produced by the Fortran core call `direct(...)`. -/
structure CoreResult where
  x : List ℚ
  fmin : ℚ
  ierror : Int
  deriving Repr, DecidableEq

/-- The tail of `solve` (lines 205-208 of the source): raise
`Exception(ERROR_MESSAGES[abs(ierror)-1])` when `ierror < 0`, otherwise
return `x, fmin, SUCCESS_MESSAGES[ierror-1]`.  A subscript out of range
raises `IndexError` instead. -/
def solveReturn (x : List ℚ) (fmin : ℚ) (ierror : Int) :
    Except PyError (List ℚ × ℚ × String) :=
  if ierror < 0 then
    match pyIndex ERROR_MESSAGES ((ierror.natAbs : Int) - 1) with
    | some msg => .error (.exception msg)
    | none => .error .indexError
  else
    match pyIndex SUCCESS_MESSAGES (ierror - 1) with
    | some msg => .ok (x, fmin, msg)
    | none => .error .indexError

/-- The inner function `_objective_wrap` of `solve` (lines 169-174): it
receives the sampled point plus the bookkeeping arguments the Fortran core
supplies (`iidata, ddata, cdata, n, iisize, idsize, icsize`) and calls the
user objective as `objective(x, user_data)`, the closure's `objective` and
`user_data`. -/
def objective_wrap {α β : Type} (objective : List ℚ → α → β) (user_data : α)
    (x : List ℚ) (iidata : List Int) (ddata : List ℚ) (cdata : List (List Nat))
    (n iisize idsize icsize : Int) : β :=
  objective x user_data

/-- The keyword-default values of `solve` (lines 58-72 of the source). -/
structure SolveDefaults where
  eps : ℚ
  maxf : Int
  maxT : Int
  algmethod : Int
  fglobal : ℚ
  fglper : ℚ
  volper : ℚ
  sigmaper : ℚ
  logfilename : String
  deriving Repr, DecidableEq

/-- The default values exactly as the `def solve(...)` line writes them. -/
def solveDefaults : SolveDefaults :=
  { eps := 1 / 10 ^ 4
    maxf := 20000
    maxT := 6000
    algmethod := 0
    fglobal := -(10 ^ 100)
    fglper := 1 / 100
    volper := -1
    sigmaper := -1
    logfilename := "DIRresults.txt" }

/-- The recommended defaults, written down from the spec's words
(section 6): `eps=1e-4, maxf=20000, maxT=6000, fglobal=-1e100,
fglper=0.01, volper=-1.0, sigmaper=-1.0, algmethod=ORIGINAL`, where the
StatusCode enum fixes `ORIGINAL=0`. -/
structure SpecDefaults where
  eps : ℚ
  maxf : Int
  maxT : Int
  fglobal : ℚ
  fglper : ℚ
  volper : ℚ
  sigmaper : ℚ
  algmethod : Int
  deriving Repr, DecidableEq

/-- section 6 of the spec, value by value. -/
def specRecommendedDefaults : SpecDefaults :=
  { eps := 1 / 10 ^ 4
    maxf := 20000
    maxT := 6000
    fglobal := -(10 ^ 100)
    fglper := 1 / 100
    volper := -1
    sigmaper := -1
    algmethod := 0 }

/-- The full argument list of one `solve` call, bundled so that two calls
can be compared as wholes. -/
structure SolveArgs (α : Type) where
  l : List ℚ
  u : List ℚ
  eps : ℚ
  maxf : Int
  maxT : Int
  algmethod : Int
  fglobal : ℚ
  fglper : ℚ
  volper : ℚ
  sigmaper : ℚ
  logfilename : String
  user_data : α
  deriving Repr, DecidableEq

/-- The argument tuple that `solve` hands to the Fortran `direct` call
(lines 187-203), in source order.  `l` and `u` are the freshly converted
`np.array(·, dtype=np.float64)` copies; `iidata`, `ddata`, `cdata` are the
dummy zero-length arrays built on lines 180-182. -/
structure CoreCallArgs where
  eps : ℚ
  maxf : Int
  maxT : Int
  l : List ℚ
  u : List ℚ
  algmethod : Int
  logfilename : String
  fglobal : ℚ
  fglper : ℚ
  volper : ℚ
  sigmaper : ℚ
  iidata : List Int
  ddata : List ℚ
  cdata : List (List Nat)

/-- Type of the objective the Fortran core expects: the sampled point plus
the bookkeeping arguments. -/
abbrev FortranObjective (β : Type) :=
  List ℚ → List Int → List ℚ → List (List Nat) → Int → Int → Int → Int → β

/-- The whole body of `solve`: wrap the objective, build the dummy arrays,
call the core, and dispatch on `ierror`.  The core is a parameter: the
Fortran implementation is outside the Python sources, and modelling it as a
Lean function is exactly the spec's statement that one invocation is
single-threaded and deterministic. -/
def solve {α : Type} (core : FortranObjective (ℚ × Bool) → CoreCallArgs → CoreResult)
    (objective : List ℚ → α → ℚ × Bool) (a : SolveArgs α) :
    Except PyError (List ℚ × ℚ × String) :=
  let r := core
    (objective_wrap objective a.user_data)
    { eps := a.eps
      maxf := a.maxf
      maxT := a.maxT
      l := a.l
      u := a.u
      algmethod := a.algmethod
      logfilename := a.logfilename
      fglobal := a.fglobal
      fglper := a.fglper
      volper := a.volper
      sigmaper := a.sigmaper
      iidata := []
      ddata := []
      cdata := [] }
  solveReturn r.x r.fmin r.ierror

/-! ## Spec-modelled parts of the Fortran core

The Fortran engine behind `from .direct import direct` is not among the
Python sources; the definitions below model the pieces of it that the
claims need, following the spec's words. -/

/-- Output of the modelled core: the result triple plus the number of
times the (wrapped) objective was invoked during the call. -/
structure CoreOutput where
  x : List ℚ
  fmin : ℚ
  ierror : Int
  evals : Nat
  deriving Repr, DecidableEq

/-- The negative status the core reports for invalid bounds; its position
matches the `'u[i] < l[i] for some i'` entry of the wrapper's
`ERROR_MESSAGES` table (the sixth message as the source lays the tuple
out, hence status `-6`). -/
def invalidBoundsIerror : Int := -6

/-- Python truth of `u[i] <= l[i] for some i` over the two bound arrays. -/
def boundsInvalid (l u : List ℚ) : Bool :=
  (l.zip u).any (fun lu => lu.2 ≤ lu.1)

/-- Modelled from the spec: the Fortran core `direct` is missing from the
sources; per sections 4.1 and 4.5, INIT "validate[s] bounds" once at solve
start, "before any sampling", and fails with the invalid-bounds status
"if `u[i] <= l[i]` for any dimension".  The behaviour on valid bounds is
left as the `search` parameter: the claims settled against this model only
concern the invalid-bounds path. -/
def directCore (search : List ℚ → List ℚ → CoreOutput) (l u : List ℚ) : CoreOutput :=
  if boundsInvalid l u then
    { x := l, fmin := 0, ierror := invalidBoundsIerror, evals := 0 }
  else
    search l u

/-- The incumbent best pair: a point and its objective value. -/
structure Incumbent where
  x : List ℚ
  value : ℚ
  deriving Repr, DecidableEq

/-- One sampled point as the core sees it: the point, the objective value
there, and the infeasibility flag the objective returned. -/
structure Sample where
  x : List ℚ
  value : ℚ
  infeasible : Bool
  deriving Repr, DecidableEq

/-- Modelled from the spec: the Driver's incumbent update (the Fortran
core is missing from the sources).  Section 3: the incumbent is "mutated
by the Driver whenever a newly sampled point improves on it; never
degrades"; section 4.4: infeasible samples "are excluded from incumbent
updates". -/
def updateIncumbent (inc : Incumbent) (s : Sample) : Incumbent :=
  if s.infeasible then inc
  else if s.value < inc.value then { x := s.x, value := s.value }
  else inc

/-- Modelled from the spec: the incumbent after processing a run's samples
in evaluation order, starting from the root evaluation's incumbent. -/
def runIncumbent (inc : Incumbent) (samples : List Sample) : Incumbent :=
  samples.foldl updateIncumbent inc

/-- The objective values of the feasible samples of a run, in order. -/
def feasibleValues (samples : List Sample) : List ℚ :=
  (samples.filter (fun s => !s.infeasible)).map Sample.value

/-! ## A small heap model for the aliasing claim

Caller-visible numpy/python sequences live in a heap of cells indexed by
`Nat`; `np.array(seq, dtype=np.float64)` allocates a fresh cell holding a
copy of the contents. -/

/-- A heap of array cells; the cell index plays the role of the object
identity. -/
abbrev Heap := List (List ℚ)

/-- Read the contents of a cell. -/
def readH (h : Heap) (r : Nat) : List ℚ := h.getD r []

/-- Allocate a fresh cell with the given contents; its index is fresh:
no existing cell has it. -/
def allocH (h : Heap) (v : List ℚ) : Heap × Nat := (h ++ [v], h.length)

/-- Overwrite the contents of a cell. -/
def writeH (h : Heap) (r : Nat) (v : List ℚ) : Heap := h.set r v

/-- `np.array(seq, dtype=np.float64)` on a heap cell: a fresh cell holding
a copy of the contents (values idealized as rationals, so the float64
conversion is the identity on contents). -/
def npArrayCopy (h : Heap) (r : Nat) : Heap × Nat := allocH h (readH h r)

/-- What the Fortran call may do with the two bound arrays it is handed:
besides producing the result triple, it may leave arbitrary final contents
in those two arrays (f2py passes them by reference). -/
structure CoreMutResult where
  lOut : List ℚ
  uOut : List ℚ
  res : CoreResult

/-- The marshalling of `solve` with object identity made explicit
(lines 192-193 of the source): the caller's `l` and `u` cells are copied
by `np.array(·, dtype=np.float64)` into fresh cells, and only those fresh
cells are handed to (and possibly mutated by) the core. -/
def solveHeap (core : List ℚ → List ℚ → CoreMutResult) (h : Heap) (rl ru : Nat) :
    Heap × Except PyError (List ℚ × ℚ × String) :=
  let hl := npArrayCopy h rl
  let hu := npArrayCopy hl.1 ru
  let out := core (readH hu.1 hl.2) (readH hu.1 hu.2)
  let hFinal := writeH (writeH hu.1 hl.2 out.lOut) hu.2 out.uOut
  (hFinal, solveReturn out.res.x out.res.fmin out.res.ierror)

/-- Adapter giving the spec-modelled bounds-checking core the calling
convention `solve` expects (the modelled core ignores the wrapped
objective and bookkeeping arguments beyond `l` and `u`). -/
def coreOfDirect (search : List ℚ → List ℚ → CoreOutput) :
    FortranObjective (ℚ × Bool) → CoreCallArgs → CoreResult :=
  fun _ args =>
    let out := directCore search args.l args.u
    { x := out.x, fmin := out.fmin, ierror := out.ierror }

/-! ## Concrete instances used to exercise the theorems -/

/-- A concrete core behaviour on valid bounds: one evaluation at the
midpoint, terminating with the max-iterations status. -/
def sampleSearch : List ℚ → List ℚ → CoreOutput :=
  fun l _ => { x := l.map (fun v => v + 1 / 2), fmin := 0, ierror := 2, evals := 1 }

/-- A concrete deterministic objective: the sum of the coordinates. -/
def sampleObjective : List ℚ → Unit → ℚ × Bool :=
  fun x _ => (x.foldl (fun acc v => acc + v) 0, false)

/-- A concrete full argument record for `solve`, with a one-dimensional
box `[0, 1]` and the source's default parameters. -/
def sampleArgs : SolveArgs Unit :=
  { l := [0]
    u := [1]
    eps := solveDefaults.eps
    maxf := solveDefaults.maxf
    maxT := solveDefaults.maxT
    algmethod := solveDefaults.algmethod
    fglobal := solveDefaults.fglobal
    fglper := solveDefaults.fglper
    volper := solveDefaults.volper
    sigmaper := solveDefaults.sigmaper
    logfilename := solveDefaults.logfilename
    user_data := () }

/-- The spec's bounds-rejection example: `l=[1,0]`, `u=[0,1]`. -/
def badBoundsArgs : SolveArgs Unit :=
  { sampleArgs with l := [1, 0], u := [0, 1] }

/-- A concrete heap with two caller-owned arrays. -/
def sampleHeap : Heap := [[1, 2], [3, 4]]

/-- A concrete core that scribbles over both arrays it is handed and
reports the max-iterations status. -/
def scribblingCore : List ℚ → List ℚ → CoreMutResult :=
  fun _ _ => { lOut := [9, 9], uOut := [8, 8], res := { x := [0], fmin := 0, ierror := 2 } }

/-! ## Helper lemmas -/

theorem updateIncumbent_value (inc : Incumbent) (s : Sample) :
    (updateIncumbent inc s).value =
      if s.infeasible then inc.value else min inc.value s.value := by
  unfold updateIncumbent
  by_cases hinf : s.infeasible
  · simp [hinf]
  · by_cases hlt : s.value < inc.value
    · simp [hinf, hlt, min_eq_right (le_of_lt hlt)]
    · simp [hinf, hlt, min_eq_left (le_of_not_lt hlt)]

theorem updateIncumbent_value_le (inc : Incumbent) (s : Sample) :
    (updateIncumbent inc s).value ≤ inc.value := by
  rw [updateIncumbent_value]
  by_cases hinf : s.infeasible
  · simp [hinf]
  · simp [hinf, min_le_left]

theorem runIncumbent_append (inc : Incumbent) (a b : List Sample) :
    runIncumbent inc (a ++ b) = runIncumbent (runIncumbent inc a) b := by
  simp [runIncumbent, List.foldl_append]

theorem runIncumbent_value_le (inc : Incumbent) (l : List Sample) :
    (runIncumbent inc l).value ≤ inc.value := by
  induction l generalizing inc with
  | nil => exact le_refl _
  | cons s t ih =>
    calc (runIncumbent (updateIncumbent inc s) t).value
        ≤ (updateIncumbent inc s).value := ih _
      _ ≤ inc.value := updateIncumbent_value_le inc s

theorem runIncumbent_value_eq (inc : Incumbent) (l : List Sample) :
    (runIncumbent inc l).value = (feasibleValues l).foldl min inc.value := by
  induction l generalizing inc with
  | nil => rfl
  | cons s t ih =>
    by_cases hs : s.infeasible
    · have h1 : updateIncumbent inc s = inc := by unfold updateIncumbent; simp [hs]
      have h2 : feasibleValues (s :: t) = feasibleValues t := by
        simp [feasibleValues, hs]
      show (runIncumbent (updateIncumbent inc s) t).value = _
      rw [h1, h2, ih]
    · have h2 : feasibleValues (s :: t) = s.value :: feasibleValues t := by
        simp [feasibleValues, hs]
      have h3 : (updateIncumbent inc s).value = min inc.value s.value := by
        rw [updateIncumbent_value]; simp [hs]
      show (runIncumbent (updateIncumbent inc s) t).value = _
      rw [ih, h3, h2, List.foldl_cons]

theorem readH_append_lt (h tail : Heap) (j : Nat) (hj : j < h.length) :
    readH (h ++ tail) j = readH h j := by
  simp only [readH, List.getD_eq_getD_get?, List.get?_eq_getElem?]
  rw [List.getElem?_append, if_pos hj]

theorem readH_append_self (h : Heap) (v : List ℚ) :
    readH (h ++ [v]) h.length = v := by
  simp [readH, List.getD_append_right _ _ _ _ (le_refl _)]

theorem readH_writeH_ne (h : Heap) (i j : Nat) (v : List ℚ) (hij : i ≠ j) :
    readH (writeH h i v) j = readH h j := by
  simp only [readH, writeH, List.getD_eq_getD_get?, List.get?_eq_getElem?]
  rw [List.getElem?_set_ne hij]

/-! ## Claim theorems -/

/-- C1: the claim asserts each fatal core status has its own
`ERROR_MESSAGES` entry, with distinct messages for the invalid-bounds and
maxf-too-large cases.  The source's tuple is missing a comma, so Python
concatenates the last two literals: the tuple has five entries, status
`-5` raises the merged string, and status `-6` (the invalid-bounds slot of
the intended six-entry table) falls off the tuple and raises `IndexError`
instead of its own message. -/
theorem error_messages_merged_by_missing_comma :
    ERROR_MESSAGES.length = 5 ∧
    solveReturn [] 0 (-5) =
      .error (.exception "maxf is too largeu[i] < l[i] for some i") ∧
    solveReturn [] 0 (-6) = .error .indexError :=
  ⟨rfl, rfl, rfl⟩

/-- C2: on the fifth success status (the sigmaper measure-threshold
termination) `solve` returns normally, and the message is distinct from
the fourth entry; but its text reads "The volume of the hyperrectangle
with best function value found is smaller then volper" — it describes the
volper volume test, not the sigmaper measure test the claim (and the
source's own docstring for `sigmaper`) announce. -/
theorem fifth_success_message_text :
    solveReturn [] 0 5 =
      .ok ([], 0,
        "The volume of the hyperrectangle with best function value found is smaller then volper") ∧
    SUCCESS_MESSAGES.get? 4 ≠ SUCCESS_MESSAGES.get? 3 :=
  ⟨rfl, by decide⟩

/-- C3: when `u[i] <= l[i]` for some `i`, the (spec-modelled) core fails
the bounds validation before any sampling — zero objective evaluations,
invalid-bounds status — and `solve` on that core call raises instead of
returning. -/
theorem invalid_bounds_raises_without_evaluation {α : Type}
    (search : List ℚ → List ℚ → CoreOutput)
    (objective : List ℚ → α → ℚ × Bool) (a : SolveArgs α)
    (h : boundsInvalid a.l a.u = true) :
    (directCore search a.l a.u).evals = 0 ∧
    (directCore search a.l a.u).ierror = invalidBoundsIerror ∧
    ∃ e, solve (coreOfDirect search) objective a = .error e := by
  have hd : directCore search a.l a.u =
      { x := a.l, fmin := 0, ierror := invalidBoundsIerror, evals := 0 } := by
    unfold directCore
    rw [if_pos h]
  refine ⟨by rw [hd], by rw [hd], ⟨.indexError, ?_⟩⟩
  show solveReturn (directCore search a.l a.u).x (directCore search a.l a.u).fmin
      (directCore search a.l a.u).ierror = .error .indexError
  rw [hd]
  rfl

/-- C3 witness: the spec's example `l=[1,0]`, `u=[0,1]` exercises the
theorem. -/
theorem invalid_bounds_raises_without_evaluation_witness :
    (directCore sampleSearch badBoundsArgs.l badBoundsArgs.u).evals = 0 ∧
    (directCore sampleSearch badBoundsArgs.l badBoundsArgs.u).ierror = invalidBoundsIerror ∧
    ∃ e, solve (coreOfDirect sampleSearch) sampleObjective badBoundsArgs = .error e :=
  invalid_bounds_raises_without_evaluation sampleSearch sampleObjective badBoundsArgs
    (by decide)

/-- C4: over the statuses the core can report (negative fatal codes and
the terminal outcomes `1..5`), `solve` raises exactly when the status is
negative, and on every terminal `EXHAUSTED`/`CONVERGED` status it returns
the triple `(x, fmin, message)` normally. -/
theorem raises_iff_negative_status (x : List ℚ) (fmin : ℚ) (ierror : Int)
    (h : ierror < 0 ∨ (1 ≤ ierror ∧ ierror ≤ 5)) :
    ((∃ e, solveReturn x fmin ierror = .error e) ↔ ierror < 0) ∧
    (1 ≤ ierror → ∃ msg, solveReturn x fmin ierror = .ok (x, fmin, msg)) := by
  rcases h with hneg | ⟨h1, h5⟩
  · refine ⟨⟨fun _ => hneg, fun _ => ?_⟩, fun hge => absurd hneg (by omega)⟩
    unfold solveReturn
    rw [if_pos hneg]
    cases hm : pyIndex ERROR_MESSAGES ((ierror.natAbs : Int) - 1) with
    | none => exact ⟨.indexError, rfl⟩
    | some msg => exact ⟨.exception msg, rfl⟩
  · have hcases : ierror = 1 ∨ ierror = 2 ∨ ierror = 3 ∨ ierror = 4 ∨ ierror = 5 := by
      omega
    rcases hcases with rfl | rfl | rfl | rfl | rfl <;>
      exact ⟨⟨fun he =>
          absurd he.choose_spec (by intro hc; simp [solveReturn, pyIndex, SUCCESS_MESSAGES] at hc),
        fun hlt => absurd hlt (by decide)⟩, fun _ => ⟨_, rfl⟩⟩

/-- C4 witness: the max-iterations status `2` returns normally. -/
theorem raises_iff_negative_status_witness :
    ((∃ e, solveReturn [] 0 2 = .error e) ↔ (2 : Int) < 0) ∧
    ((1 : Int) ≤ 2 → ∃ msg, solveReturn [] 0 2 = .ok ([], 0, msg)) :=
  raises_iff_negative_status [] 0 2 (Or.inr (by decide))

/-- C5: `_objective_wrap` forwards exactly the sampled point and the
closed-over `user_data` to the user objective, whatever the bookkeeping
arguments the core supplies are — so every objective call receives the
caller's `user_data` object unchanged. -/
theorem objective_wrap_forwards_user_data {α β : Type}
    (objective : List ℚ → α → β) (user_data : α)
    (x : List ℚ) (iidata : List Int) (ddata : List ℚ) (cdata : List (List Nat))
    (n iisize idsize icsize : Int) :
    objective_wrap objective user_data x iidata ddata cdata n iisize idsize icsize =
      objective x user_data :=
  rfl

/-- C6: the keyword defaults of `solve` coincide, value for value, with
the spec's recommended defaults (`eps=1e-4`, `maxf=20000`, `maxT=6000`,
`fglobal=-1e100`, `fglper=0.01`, `volper=-1.0`, `sigmaper=-1.0`,
`algmethod=ORIGINAL=0`). -/
theorem solve_defaults_match_spec :
    solveDefaults.eps = specRecommendedDefaults.eps ∧
    solveDefaults.maxf = specRecommendedDefaults.maxf ∧
    solveDefaults.maxT = specRecommendedDefaults.maxT ∧
    solveDefaults.fglobal = specRecommendedDefaults.fglobal ∧
    solveDefaults.fglper = specRecommendedDefaults.fglper ∧
    solveDefaults.volper = specRecommendedDefaults.volper ∧
    solveDefaults.sigmaper = specRecommendedDefaults.sigmaper ∧
    solveDefaults.algmethod = specRecommendedDefaults.algmethod :=
  ⟨rfl, rfl, rfl, rfl, rfl, rfl, rfl, rfl⟩

/-- C7: `solve` is deterministic — two calls with the same core, the same
(deterministic) objective, and equal argument records produce equal
results. -/
theorem solve_deterministic {α : Type}
    (core : FortranObjective (ℚ × Bool) → CoreCallArgs → CoreResult)
    (objective : List ℚ → α → ℚ × Bool) (a b : SolveArgs α) (h : a = b) :
    solve core objective a = solve core objective b := by
  rw [h]

/-- C7 witness: a concrete repeated call. -/
theorem solve_deterministic_witness :
    solve (coreOfDirect sampleSearch) sampleObjective sampleArgs =
      solve (coreOfDirect sampleSearch) sampleObjective sampleArgs :=
  solve_deterministic (coreOfDirect sampleSearch) sampleObjective sampleArgs sampleArgs
    rfl

/-- C8: over the (spec-modelled) Driver's incumbent updates, the incumbent
value is non-increasing in evaluation count — after any further samples it
is at most what it was at any earlier point of the run — and the final
value is the minimum of the starting value and all feasible sampled
values. -/
theorem incumbent_monotone_and_minimal (inc : Incumbent) (pre post : List Sample) :
    (runIncumbent inc (pre ++ post)).value ≤ (runIncumbent inc pre).value ∧
    (runIncumbent inc (pre ++ post)).value =
      (feasibleValues (pre ++ post)).foldl min inc.value := by
  constructor
  · rw [runIncumbent_append]
    exact runIncumbent_value_le _ _
  · exact runIncumbent_value_eq _ _

/-- C9: on core status `0` `solve` does not raise: `ierror-1 = -1` and
Python's negative indexing makes `SUCCESS_MESSAGES[-1]` the LAST entry of
the tuple, so the zero status is reported as the fifth success message. -/
theorem zero_status_reports_last_success_message (x : List ℚ) (fmin : ℚ) :
    solveReturn x fmin 0 =
      .ok (x, fmin,
        "The volume of the hyperrectangle with best function value found is smaller then volper") ∧
    SUCCESS_MESSAGES.getLast? =
      some "The volume of the hyperrectangle with best function value found is smaller then volper" :=
  ⟨rfl, rfl⟩

/-- C10: `solve` copies the caller's `l` and `u` into fresh arrays before
handing them to the core, so whatever the core writes into the arrays it
received, the caller's two cells hold their original contents when
`solveHeap` returns. -/
theorem solve_preserves_caller_arrays
    (core : List ℚ → List ℚ → CoreMutResult) (h : Heap) (rl ru : Nat)
    (hrl : rl < h.length) (hru : ru < h.length) :
    readH (solveHeap core h rl ru).1 rl = readH h rl ∧
    readH (solveHeap core h rl ru).1 ru = readH h ru := by
  have hlen1 : (h ++ [readH h rl]).length = h.length + 1 := by
    simp
  have hrl1 : rl < (h ++ [readH h rl]).length := by omega
  have hru1 : ru < (h ++ [readH h rl]).length := by omega
  have hne2l : (h ++ [readH h rl]).length ≠ rl := by omega
  have hne2u : (h ++ [readH h rl]).length ≠ ru := by omega
  constructor
  · simp only [solveHeap, npArrayCopy, allocH]
    rw [readH_writeH_ne _ _ _ _ hne2l, readH_writeH_ne _ _ _ _ (by omega),
      readH_append_lt _ _ _ hrl1, readH_append_lt _ _ _ hrl]
  · simp only [solveHeap, npArrayCopy, allocH]
    rw [readH_writeH_ne _ _ _ _ hne2u, readH_writeH_ne _ _ _ _ (by omega),
      readH_append_lt _ _ _ hru1, readH_append_lt _ _ _ hru]

/-- C10 witness: a concrete two-cell heap and a core that scribbles over
the arrays it receives. -/
theorem solve_preserves_caller_arrays_witness :
    readH (solveHeap scribblingCore sampleHeap 0 1).1 0 = readH sampleHeap 0 ∧
    readH (solveHeap scribblingCore sampleHeap 0 1).1 1 = readH sampleHeap 1 :=
  solve_preserves_caller_arrays scribblingCore sampleHeap 0 1 (by decide) (by decide)

end PyDirect
